import Mathlib

/-!
Shallow embedding of the fraud-detection analytic core of
src/src/fraud_analysis.py (class FraudAnalyzer).

The Python module runs SQL queries over a transaction table joined with
dimension tables (credit_card, card_holder, merchant, merchant_category).
Per the input contract, the snapshot is the already-joined, denormalized
list of transaction records; we embed it as a Lean list of `Tx` records.
Monetary amounts (SQL numeric) are rationals, timestamps are seconds
(a natural number), so that `EXTRACT(HOUR ...)` is `date / 3600 % 24` and
epoch differences are exact.

SQL NULL is embedded as `Option`: aggregates over zero rows are `none`,
and a comparison with a `none` operand is false (SQL three-valued logic
collapsed at the WHERE/CASE boundary, where NULL and FALSE coincide).

Z-scores divide by `stddev = sqrt(variance)`, which is irrational in
general.  We keep all arithmetic in ℚ by storing the variance and the
squared z-score, and embedding each comparison against a z-score bound by
its exact square-free equivalent: for `σ = sqrt v` (`v ≥ 0`),
`|x| > k*σ  ↔  x^2 > k^2 * v`, and ordering by `z` descending equals
ordering by `z^2` descending since `z ≥ 0`.  Postgres `STDDEV` is the
sample standard deviation (NULL when fewer than two rows).
-/

-- Rational arithmetic is sealed behind irreducibility markers in the
-- library; reopening it lets concrete runs of the embedded queries be
-- checked by kernel evaluation (decide) on explicit snapshots.
unseal Rat.add Rat.mul Rat.inv Rat.sub Rat.ofScientific

namespace FraudDetection

/-- One denormalized transaction row of the snapshot: `t.id`, `t.date`
(seconds since an arbitrary epoch), `t.amount`, `t.card`, `t.id_merchant`.
Label columns (cardholder/merchant/category names) are carried by the
joins only for display and are not part of any computation, so they are
not modeled; `card` and `merchant` are the grouping keys. -/
structure Tx where
  id : Nat
  date : Nat
  amount : ℚ
  card : Nat
  merchant : Nat
deriving DecidableEq, Repr

/-- The amount column of the snapshot. -/
def amounts (txs : List Tx) : List ℚ := txs.map (fun t => t.amount)

/-- SQL `AVG(amount)`: NULL on an empty table. -/
def meanOpt (txs : List Tx) : Option ℚ :=
  let l := amounts txs
  if l.length = 0 then none else some (l.sum / l.length)

/-- SQL `STDDEV(amount)` squared, i.e. the sample variance
`Σ (x - mean)^2 / (n - 1)`: NULL for fewer than two rows.  We store the
variance rather than its square root to stay in ℚ (see module comment). -/
def varSampOpt (txs : List Tx) : Option ℚ :=
  let l := amounts txs
  if l.length ≤ 1 then none
  else
    let m := l.sum / l.length
    some (((l.map (fun x => (x - m) ^ 2)).sum) / (l.length - 1))

/-- SQL `PERCENTILE_CONT(p) WITHIN GROUP (ORDER BY amount)`: sort
ascending; for rank `h = p * (n - 1)` linearly interpolate between the
values at positions `⌊h⌋` and `⌊h⌋ + 1`.  NULL on an empty group.
(`insertionSort` realizes the SQL ORDER BY throughout this file: it is a
stable comparison sort, and any sort produces the same sorted list of
amounts here.) -/
def percentileCont (p : ℚ) (l : List ℚ) : Option ℚ :=
  let s := l.insertionSort (· ≤ ·)
  if s.length = 0 then none
  else
    let h : ℚ := p * ((s.length : ℚ) - 1)
    let i : Nat := (⌊h⌋).toNat
    let lo := s.getD i 0
    let hi := s.getD (i + 1) lo
    some (lo + (h - i) * (hi - lo))

/-- `q1` of the transaction_stats CTE. -/
def q1Opt (txs : List Tx) : Option ℚ := percentileCont (1/4) (amounts txs)

/-- `q3` of the transaction_stats CTE. -/
def q3Opt (txs : List Tx) : Option ℚ := percentileCont (3/4) (amounts txs)

/-- `iqr_lower_bound = q1 - 1.5 * (q3 - q1)` (NULL when the quartiles are). -/
def iqrLowerOpt (txs : List Tx) : Option ℚ := do
  let q1 ← q1Opt txs
  let q3 ← q3Opt txs
  pure (q1 - 3/2 * (q3 - q1))

/-- `iqr_upper_bound = q3 + 1.5 * (q3 - q1)` (NULL when the quartiles are). -/
def iqrUpperOpt (txs : List Tx) : Option ℚ := do
  let q1 ← q1Opt txs
  let q3 ← q3Opt txs
  pure (q3 + 3/2 * (q3 - q1))

/-- `t.amount < ob.iqr_lower_bound OR t.amount > ob.iqr_upper_bound`,
with a NULL bound making the comparison false. -/
def iqrOutside (txs : List Tx) (t : Tx) : Bool :=
  match iqrLowerOpt txs, iqrUpperOpt txs with
  | some lo, some hi => decide (t.amount < lo ∨ hi < t.amount)
  | _, _ => false

/-- `t.amount < mean - 3*stddev OR t.amount > mean + 3*stddev`, with a
NULL mean or stddev making both comparisons false.  Since
`stddev = sqrt v ≥ 0`, the disjunction is equivalent to
`|amount - mean| > 3*stddev`, embedded square-free as
`(amount - mean)^2 > 9 * v`. -/
def zOutside (txs : List Tx) (t : Tx) : Bool :=
  match meanOpt txs, varSampOpt txs with
  | some m, some v => decide ((t.amount - m) ^ 2 > 9 * v)
  | _, _ => false

/-- The outlier categories of the CASE expression. -/
inductive Category where
  | Normal
  | IQR_Outlier
  | ZScore_Outlier
deriving DecidableEq, Repr

/-- The CASE expression of detect_outlier_transactions: IQR bounds are
checked first, then the z-score bounds, else Normal. -/
def classify (txs : List Tx) (t : Tx) : Category :=
  if iqrOutside txs t then .IQR_Outlier
  else if zOutside txs t then .ZScore_Outlier
  else .Normal

/-- The WHERE clause of detect_outlier_transactions: outside the IQR
bounds or outside the z-score bounds (NULL comparisons false). -/
def wherePred (txs : List Tx) (t : Tx) : Bool :=
  iqrOutside txs t || zOutside txs t

/-- `z_score = ABS(amount - mean) / NULLIF(stddev, 0)`, squared to stay
in ℚ: `z^2 = (amount - mean)^2 / v`.  NULL exactly when the mean or the
stddev is NULL or the stddev is zero — the same cases in which `z`
itself is NULL. -/
def zSqOpt (txs : List Tx) (t : Tx) : Option ℚ :=
  match meanOpt txs, varSampOpt txs with
  | some m, some v => if v = 0 then none else some ((t.amount - m) ^ 2 / v)
  | _, _ => none

/-- One output row of detect_outlier_transactions: the transaction with
its `outlier_type` and `z_score` columns (the z-score squared, see
module comment; the two are NULL together and order alike). -/
structure OutRow where
  tx : Tx
  otype : Category
  zsq : Option ℚ
deriving DecidableEq, Repr

/-- `ORDER BY ... DESC` on a NULLable key: a NULL key sorts before every
non-NULL key (Postgres default NULLS FIRST under DESC), larger keys
first among non-NULL keys. -/
def optDescLe : Option ℚ → Option ℚ → Prop
  | none, _ => True
  | some _, none => False
  | some x, some y => y ≤ x

instance : DecidableRel optDescLe := fun a b =>
  match a, b with
  | none, _ => isTrue trivial
  | some _, none => isFalse (fun h => h)
  | some x, some y => inferInstanceAs (Decidable (y ≤ x))

instance : IsTotal (Option ℚ) optDescLe :=
  ⟨fun a b =>
    match a, b with
    | none, _ => Or.inl trivial
    | some _, none => Or.inr trivial
    | some x, some y => (le_total y x).imp id id⟩

instance : IsTrans (Option ℚ) optDescLe :=
  ⟨fun a b c h₁ h₂ =>
    match a, b, c, h₁, h₂ with
    | none, _, _, _, _ => trivial
    | some _, some _, some _, h₁, h₂ => le_trans h₂ h₁⟩

/-- `ORDER BY ABS(amount - mean) / NULLIF(stddev, 0) DESC` as a relation
on output rows via the `z_score` column: larger z first.  Comparing `z`
is the same as comparing `z^2` since `z ≥ 0`. -/
def zDesc (a b : OutRow) : Prop := optDescLe a.zsq b.zsq

instance : DecidableRel zDesc := fun a b =>
  inferInstanceAs (Decidable (optDescLe a.zsq b.zsq))

instance : IsTotal OutRow zDesc := ⟨fun a b => total_of optDescLe a.zsq b.zsq⟩

instance : IsTrans OutRow zDesc :=
  ⟨fun a b _ h₁ h₂ => trans_of optDescLe (h₁ : optDescLe a.zsq b.zsq) h₂⟩

/-- FraudAnalyzer.detect_outlier_transactions: keep the rows outside the
IQR or z-score bounds, attach outlier_type and z_score, order by
z-score descending. -/
def detect_outlier_transactions (txs : List Tx) : List OutRow :=
  (((txs.filter (fun t => wherePred txs t)).map
      (fun t => OutRow.mk t (classify txs t) (zSqOpt txs t))).insertionSort zDesc)

/-- Number of output rows of the outlier detector carrying a given
outlier_type. -/
def countCategory (rows : List OutRow) (c : Category) : Nat :=
  (rows.filter (fun r => r.otype = c)).length

/-! ### Early-morning window (get_top_100_early_morning_transactions) -/

/-- `EXTRACT(HOUR FROM t.date)` for a timestamp in seconds. -/
def hourOf (t : Tx) : Nat := t.date / 3600 % 24

/-- `EXTRACT(HOUR FROM t.date) BETWEEN 7 AND 9` (inclusive on both ends). -/
def earlyHour (t : Tx) : Bool := decide (7 ≤ hourOf t ∧ hourOf t ≤ 9)

/-- `ORDER BY t.amount DESC`. -/
def amountDesc (a b : Tx) : Prop := b.amount ≤ a.amount

instance : DecidableRel amountDesc := fun a b =>
  inferInstanceAs (Decidable (b.amount ≤ a.amount))

instance : IsTotal Tx amountDesc := ⟨fun a b => le_total b.amount a.amount⟩

instance : IsTrans Tx amountDesc := ⟨fun _ _ _ h₁ h₂ => le_trans h₂ h₁⟩

/-- FraudAnalyzer.get_top_100_early_morning_transactions: rows whose hour
is in [7, 9], ordered by amount descending, LIMIT 100. -/
def get_top_100_early_morning_transactions (txs : List Tx) : List Tx :=
  ((txs.filter earlyHour).insertionSort amountDesc).take 100

/-! ### Small (card-testing) transactions
(count_small_transactions_per_cardholder) -/

/-- The `WHERE t.amount < 2.00` filter.  The query hard-codes the 2.00
threshold; the threshold is a parameter here so that the configuration
claims about varying it are statable, and every use by the other
queries instantiates it with the hard-coded 2. -/
def smallFilter (thr : ℚ) (txs : List Tx) : List Tx :=
  txs.filter (fun t => decide (t.amount < thr))

/-- Per-card count of small transactions: the `COUNT(*)` of the group of
a given card after the small-amount filter. -/
def cardSmallCount (thr : ℚ) (c : Nat) (txs : List Tx) : Nat :=
  ((smallFilter thr txs).filter (fun t => t.card = c)).length

/-- One output row of count_small_transactions_per_cardholder: the card
with its COUNT(*), AVG, MIN and MAX over the card's small transactions.
The cardholder-name and STRING_AGG label columns are display-only and
not modeled. -/
structure CardGroup where
  card : Nat
  count : Nat
  avgAmt : ℚ
  minAmt : ℚ
  maxAmt : ℚ
deriving DecidableEq, Repr

/-- `ORDER BY small_transaction_count DESC` on the card groups. -/
def cardCountDesc (a b : CardGroup) : Prop := b.count ≤ a.count

instance : DecidableRel cardCountDesc := fun a b =>
  inferInstanceAs (Decidable (b.count ≤ a.count))

instance : IsTotal CardGroup cardCountDesc := ⟨fun a b => Nat.le_total b.count a.count⟩

instance : IsTrans CardGroup cardCountDesc := ⟨fun _ _ _ h₁ h₂ => le_trans h₂ h₁⟩

/-- MIN over a group (the group is never empty). -/
def listMin (l : List ℚ) : ℚ :=
  match l with
  | [] => 0
  | a :: r => r.foldl min a

/-- MAX over a group (the group is never empty). -/
def listMax (l : List ℚ) : ℚ :=
  match l with
  | [] => 0
  | a :: r => r.foldl max a

/-- FraudAnalyzer.count_small_transactions_per_cardholder: filter to
amounts below the threshold, GROUP BY card, ORDER BY count DESC.  The
query has no secondary sort key, so the order among groups with equal
counts is whatever the engine produces; the embedding determinizes it as
first-occurrence order of the card in the snapshot (groups are built in
first-occurrence order and the sort is stable). -/
def count_small_transactions_per_cardholder (thr : ℚ) (txs : List Tx) :
    List CardGroup :=
  let f := smallFilter thr txs
  let cards := (f.map (fun t => t.card)).dedup
  (cards.map (fun c =>
      let g := (f.filter (fun t => t.card = c)).map (fun t => t.amount)
      CardGroup.mk c g.length (g.sum / g.length) (listMin g) (listMax g))).insertionSort
    cardCountDesc

/-! ### Vulnerable merchants (identify_top_5_vulnerable_merchants) -/

/-- One output row of identify_top_5_vulnerable_merchants: the merchant
with its COUNT(*), AVG/MIN/MAX amount and COUNT(DISTINCT card) over the
merchant's small transactions (name columns not modeled). -/
structure MerchantGroup where
  merchant : Nat
  count : Nat
  avgAmt : ℚ
  minAmt : ℚ
  maxAmt : ℚ
  uniqueCards : Nat
deriving DecidableEq, Repr

/-- `ORDER BY small_transaction_count DESC` on the merchant groups. -/
def merchantCountDesc (a b : MerchantGroup) : Prop := b.count ≤ a.count

instance : DecidableRel merchantCountDesc := fun a b =>
  inferInstanceAs (Decidable (b.count ≤ a.count))

instance : IsTotal MerchantGroup merchantCountDesc :=
  ⟨fun a b => Nat.le_total b.count a.count⟩

instance : IsTrans MerchantGroup merchantCountDesc :=
  ⟨fun _ _ _ h₁ h₂ => le_trans h₂ h₁⟩

/-- FraudAnalyzer.identify_top_5_vulnerable_merchants: small-amount
filter (threshold hard-coded 2.00), GROUP BY merchant, ORDER BY count
DESC (no secondary key; determinized as for the card groups), LIMIT 5. -/
def identify_top_5_vulnerable_merchants (txs : List Tx) : List MerchantGroup :=
  let f := smallFilter 2 txs
  let ms := (f.map (fun t => t.merchant)).dedup
  (((ms.map (fun mId =>
      let g := f.filter (fun t => t.merchant = mId)
      let a := g.map (fun t => t.amount)
      MerchantGroup.mk mId g.length (a.sum / a.length) (listMin a) (listMax a)
        ((g.map (fun t => t.card)).dedup.length))).insertionSort
    merchantCountDesc).take 5)

/-! ### Rapid (velocity) transactions (analyze_rapid_transactions) -/

/-- `EXTRACT(EPOCH FROM (later - earlier)) / 60`: the gap in minutes
from `u` to `t` (dates in seconds). -/
def gapMin (u t : Tx) : ℚ := ((t.date : ℚ) - (u.date : ℚ)) / 60

/-- One row of the rapid_transactions CTE: the transaction with its
`minutes_since_prev` (NULL for the first of its partition) and
`minutes_to_next` (NULL for the last). -/
structure VelRow where
  tx : Tx
  sincePrev : Option ℚ
  toNext : Option ℚ
deriving DecidableEq, Repr

/-- The LAG/LEAD scan over one date-ordered partition: each row is paired
with the gap in minutes from its predecessor (the accumulator `p`, NULL
at the start) and to its successor (the head of the rest, NULL at the
end). -/
def lagLead (p : Option Tx) : List Tx → List VelRow
  | [] => []
  | t :: rest =>
      VelRow.mk t (p.map (fun u => gapMin u t)) (rest.head?.map (fun u => gapMin t u)) ::
        lagLead (some t) rest

/-- The WHERE clause of analyze_rapid_transactions: a non-NULL
minutes_since_prev at most the window, or a non-NULL minutes_to_next at
most the window. -/
def rapidWhere (w : ℚ) (r : VelRow) : Bool :=
  (r.sincePrev.any (fun g => decide (g ≤ w))) ||
    (r.toNext.any (fun g => decide (g ≤ w)))

/-- `PARTITION BY t.card`: the rows of one card, in snapshot order. -/
def partitionOf (txs : List Tx) (c : Nat) : List Tx :=
  txs.filter (fun t => t.card = c)

/-- `ORDER BY t.date` of the window clause. -/
def dateAsc (a b : Tx) : Prop := a.date ≤ b.date

instance : DecidableRel dateAsc := fun a b =>
  inferInstanceAs (Decidable (a.date ≤ b.date))

instance : IsTotal Tx dateAsc := ⟨fun a b => Nat.le_total a.date b.date⟩

instance : IsTrans Tx dateAsc := ⟨fun _ _ _ h₁ h₂ => le_trans h₁ h₂⟩

/-- A card partition sorted ascending by date (the `ORDER BY t.date` of
the window clause; ties on equal dates in snapshot order). -/
def sortedPartition (txs : List Tx) (c : Nat) : List Tx :=
  (partitionOf txs c).insertionSort dateAsc

set_option linter.unusedVariables false in
/-- FraudAnalyzer.analyze_rapid_transactions: LAG/LEAD gaps per card
partition ordered by date, keep rows with a gap within the window,
final ORDER BY card, date (cards ascending, each partition already date
ordered).  The `min_transaction_count` argument is accepted but never
used by the query (it is not interpolated into the SQL text). -/
def analyze_rapid_transactions (txs : List Tx) (window_minutes : ℚ)
    (min_transaction_count : Nat) : List VelRow :=
  let cards := ((txs.map (fun t => t.card)).dedup).insertionSort (· ≤ ·)
  cards.flatMap (fun c => (lagLead none (sortedPartition txs c)).filter (rapidWhere window_minutes))

/-! ### Summary report (generate_fraud_summary_report) -/

/-- The basic-statistics aggregate row: COUNTs are never NULL, the
AVG/MIN/MAX/SUM aggregates and the date range are NULL on an empty
table. -/
structure BasicStatsRow where
  total_transactions : Nat
  unique_cards : Nat
  unique_merchants : Nat
  avg_transaction_amount : Option ℚ
  min_amount : Option ℚ
  max_amount : Option ℚ
  total_volume : Option ℚ
  date_range_start : Option Nat
  date_range_end : Option Nat
deriving DecidableEq, Repr

/-- MIN over the date column as an Option (NULL on empty). -/
def listMinNat (l : List Nat) : Option Nat :=
  match l with
  | [] => none
  | a :: r => some (r.foldl min a)

/-- MAX over the date column as an Option (NULL on empty). -/
def listMaxNat (l : List Nat) : Option Nat :=
  match l with
  | [] => none
  | a :: r => some (r.foldl max a)

/-- MIN over the amount column as an Option (NULL on empty). -/
def listMinOpt (l : List ℚ) : Option ℚ :=
  match l with
  | [] => none
  | a :: r => some (r.foldl min a)

/-- MAX over the amount column as an Option (NULL on empty). -/
def listMaxOpt (l : List ℚ) : Option ℚ :=
  match l with
  | [] => none
  | a :: r => some (r.foldl max a)

/-- The basic_stats_query of generate_fraud_summary_report. -/
def basicStats (txs : List Tx) : BasicStatsRow :=
  { total_transactions := txs.length
    unique_cards := ((txs.map (fun t => t.card)).dedup).length
    unique_merchants := ((txs.map (fun t => t.merchant)).dedup).length
    avg_transaction_amount := meanOpt txs
    min_amount := listMinOpt (amounts txs)
    max_amount := listMaxOpt (amounts txs)
    total_volume := if txs.length = 0 then none else some (amounts txs).sum
    date_range_start := listMinNat (txs.map (fun t => t.date))
    date_range_end := listMaxNat (txs.map (fun t => t.date)) }

/-- The basic_statistics section of the summary dict.  The Python code
converts each aggregate with `float(...)`; a NULL aggregate arrives as
None and `float(None)` raises, so the embedding of the conversion is the
`Option` bind in `generate_fraud_summary_report` below.  `date_range` is
built by an f-string, which never raises, so it stays a pair of
options. -/
structure BasicStatistics where
  total_transactions : Nat
  unique_cards : Nat
  unique_merchants : Nat
  avg_transaction_amount : ℚ
  min_amount : ℚ
  max_amount : ℚ
  total_volume : ℚ
  date_range : Option Nat × Option Nat
deriving DecidableEq, Repr

/-- The fraud_indicators section of the summary dict. -/
structure FraudIndicators where
  cards_with_small_transactions : Nat
  total_small_transactions : Nat
  outlier_transactions : Nat
  suspicious_early_morning_transactions : Nat
  vulnerable_merchants : Nat
deriving DecidableEq, Repr

/-- The risk_assessment section of the summary dict. -/
structure RiskAssessment where
  high_risk_cards : Nat
  extreme_outliers : Nat
  early_morning_high_value : Nat
deriving DecidableEq, Repr

/-- The summary dict returned by generate_fraud_summary_report. -/
structure Report where
  basic_statistics : BasicStatistics
  fraud_indicators : FraudIndicators
  risk_assessment : RiskAssessment
deriving DecidableEq, Repr

/-- `z_score > 5` on an outlier output row, square-free:
`z > 5 ↔ z^2 > 25` (a NULL z-score compares false, as in pandas). -/
def zSqGt25 (r : OutRow) : Bool :=
  r.zsq.any (fun s => decide (s > 25))

/-- FraudAnalyzer.generate_fraud_summary_report.  `none` models the `{}`
returned by the except handler: on an empty snapshot the NULL aggregates
make a `float(None)` conversion raise inside the try block, which the
handler turns into `{}`.  The `if ... isEmpty` guards mirror the
`if len(...) > 0 else 0` expressions of the source. -/
def generate_fraud_summary_report (txs : List Tx) : Option Report := do
  let bs := basicStats txs
  let avg ← bs.avg_transaction_amount
  let mn ← bs.min_amount
  let mx ← bs.max_amount
  let tv ← bs.total_volume
  let small := count_small_transactions_per_cardholder 2 txs
  let outliers := detect_outlier_transactions txs
  let em := get_top_100_early_morning_transactions txs
  let vm := identify_top_5_vulnerable_merchants txs
  some
    { basic_statistics :=
        { total_transactions := bs.total_transactions
          unique_cards := bs.unique_cards
          unique_merchants := bs.unique_merchants
          avg_transaction_amount := avg
          min_amount := mn
          max_amount := mx
          total_volume := tv
          date_range := (bs.date_range_start, bs.date_range_end) }
      fraud_indicators :=
        { cards_with_small_transactions := small.length
          total_small_transactions :=
            if small.isEmpty then 0 else (small.map (fun g => g.count)).sum
          outlier_transactions := outliers.length
          suspicious_early_morning_transactions := em.length
          vulnerable_merchants := vm.length }
      risk_assessment :=
        { high_risk_cards :=
            if small.isEmpty then 0 else (small.filter (fun g => decide (10 ≤ g.count))).length
          extreme_outliers :=
            if outliers.isEmpty then 0 else (outliers.filter zSqGt25).length
          early_morning_high_value :=
            if em.isEmpty then 0 else (em.filter (fun t => decide (100 < t.amount))).length } }

/-! ### Concrete snapshots

`fixture` is the 10-record sample of tests/test_fraud_detection.py
(`TestFraudDetection.setUp`): ids 1..10, timestamps on 2018-01-01 given
as seconds since that midnight, the amounts
1.50, 25, 1.75, 45, 1.25, 35, 1.80, 55, 1.95, 2500, cards
1234/5678/9012/3456 and merchants numbered by first occurrence
(Coffee Shop 1, Restaurant 2, Gas Station 3, Jewelry Store 4).
The other snapshots are small hand-made inputs for concrete runs. -/

/-- The 10-record test fixture. -/
def fixture : List Tx :=
  [ ⟨1, 30600, 3/2, 1234, 1⟩,
    ⟨2, 52200, 25, 5678, 2⟩,
    ⟨3, 26100, 7/4, 1234, 1⟩,
    ⟨4, 73800, 45, 9012, 3⟩,
    ⟨5, 31500, 5/4, 1234, 1⟩,
    ⟨6, 45000, 35, 5678, 2⟩,
    ⟨7, 32400, 9/5, 1234, 1⟩,
    ⟨8, 59400, 55, 9012, 3⟩,
    ⟨9, 27000, 39/20, 1234, 1⟩,
    ⟨10, 81000, 2500, 3456, 4⟩ ]

/-- Two same-amount transactions: both are classified Normal, so the
outlier query returns no rows at all. -/
def twoEqual : List Tx := [⟨1, 0, 1, 1, 1⟩, ⟨2, 60, 1, 1, 1⟩]

/-- Three same-amount transactions (all Normal, output empty). -/
def threeEqual : List Tx := [⟨1, 0, 1, 1, 1⟩, ⟨2, 60, 1, 1, 1⟩, ⟨3, 120, 1, 1, 1⟩]

/-- Three equal cheap transactions and one expensive one: the expensive
one lies outside the IQR fences. -/
def threeOneBig : List Tx :=
  [⟨1, 0, 1, 1, 1⟩, ⟨2, 0, 1, 1, 1⟩, ⟨3, 0, 1, 1, 1⟩, ⟨4, 0, 100, 1, 1⟩]

/-- Two cards with one small transaction each, the larger card id first
in the snapshot. -/
def twoCardsTied : List Tx := [⟨1, 0, 1, 2, 1⟩, ⟨2, 0, 1, 1, 1⟩]

/-- Two same-amount transactions on one card (zero sample variance). -/
def twoSameCard : List Tx := [⟨1, 0, 5, 1, 1⟩, ⟨2, 3600, 5, 1, 1⟩]

/-- Two transactions on one card two minutes apart. -/
def twoQuick : List Tx := [⟨1, 0, 10, 5, 1⟩, ⟨2, 120, 20, 5, 1⟩]

/-- One transaction (summary report succeeds on it). -/
def oneTx : List Tx := [⟨1, 30600, 50, 7, 3⟩]

/-- A report value used only as the default of `Option.getD`. -/
def dummyReport : Report :=
  ⟨⟨0, 0, 0, 0, 0, 0, 0, (none, none)⟩, ⟨0, 0, 0, 0, 0⟩, ⟨0, 0, 0⟩⟩

/-! ## Theorems -/

/-- Any function into the three outlier categories partitions a list:
the filtered lengths of the three categories sum to the length. -/
theorem length_filter_category {α : Type} (f : α → Category) (l : List α) :
    (l.filter fun a => f a = Category.Normal).length +
      (l.filter fun a => f a = Category.IQR_Outlier).length +
      (l.filter fun a => f a = Category.ZScore_Outlier).length = l.length := by
  induction l with
  | nil => simp
  | cons a l ih =>
      cases h : f a <;> simp [List.filter_cons, h] <;> omega

/-- C1 (corrected), counterexample: on the two-equal-transaction
snapshot every transaction is classified Normal, the WHERE clause of
detect_outlier_transactions removes both rows, and the category counts
of the output sum to 0, not to the snapshot size 2. -/
theorem outlier_output_counts_not_total :
    ¬ (countCategory (detect_outlier_transactions twoEqual) Category.Normal +
        countCategory (detect_outlier_transactions twoEqual) Category.IQR_Outlier +
        countCategory (detect_outlier_transactions twoEqual) Category.ZScore_Outlier =
        twoEqual.length) := by decide

/-- C1 (corrected), amended: the CASE expression classifies every
transaction of the snapshot into exactly one category — the three
per-category counts over the snapshot sum to the total — and IQR takes
precedence: a transaction outside the IQR fences is classified
IQR_Outlier whatever the z-score bounds say.  The detector's output,
however, keeps only the non-Normal rows, so the output's category
counts sum to the output size, not to the snapshot size. -/
theorem outlier_classification_partition (txs : List Tx) :
    ((txs.filter fun t => classify txs t = Category.Normal).length +
        (txs.filter fun t => classify txs t = Category.IQR_Outlier).length +
        (txs.filter fun t => classify txs t = Category.ZScore_Outlier).length =
        txs.length) ∧
      ∀ t : Tx, iqrOutside txs t = true → classify txs t = Category.IQR_Outlier :=
  ⟨length_filter_category _ _, fun t h => by simp [classify, h]⟩

/-- Witness for the amended C1 at the three-cheap-one-expensive
snapshot: the 100 amount is outside the IQR fences and is classified
IQR_Outlier, and the category counts over the snapshot sum to 4. -/
theorem outlier_classification_partition_witness :
    iqrOutside threeOneBig ⟨4, 0, 100, 1, 1⟩ = true ∧
      classify threeOneBig ⟨4, 0, 100, 1, 1⟩ = Category.IQR_Outlier ∧
      ((threeOneBig.filter fun t => classify threeOneBig t = Category.Normal).length +
        (threeOneBig.filter fun t => classify threeOneBig t = Category.IQR_Outlier).length +
        (threeOneBig.filter fun t => classify threeOneBig t = Category.ZScore_Outlier).length =
        threeOneBig.length) :=
  ⟨by decide,
    (outlier_classification_partition threeOneBig).2 ⟨4, 0, 100, 1, 1⟩ (by decide),
    (outlier_classification_partition threeOneBig).1⟩

/-- C2 (corrected), counterexample: on the empty snapshot the summary
builder returns the empty dict `{}` (embedded as `none`), not a report
of the documented shape. -/
theorem empty_snapshot_report_empty_dict :
    generate_fraud_summary_report ([] : List Tx) = none := by decide

/-- C2 (corrected), amended: on the empty snapshot every detector
degrades to an empty table, and no exception escapes the builder — but
the result is the empty dict `{}` (`none`) rather than the documented
all-zero report, because `AVG(amount)` over zero rows is NULL and its
`float(...)` conversion raises inside the try block, which the except
handler converts to `{}`. -/
theorem empty_snapshot_degrades :
    (basicStats ([] : List Tx)).avg_transaction_amount = none ∧
      count_small_transactions_per_cardholder 2 [] = [] ∧
      detect_outlier_transactions [] = [] ∧
      get_top_100_early_morning_transactions [] = [] ∧
      identify_top_5_vulnerable_merchants [] = [] ∧
      analyze_rapid_transactions [] 5 3 = [] ∧
      generate_fraud_summary_report ([] : List Tx) = none := by decide

/-- C3 (corrected), counterexample: in the fixture run of
detect_outlier_transactions no row classified ZScore_Outlier exists at
all — in particular the 2500.00 record is not in the Z-score-outlier
output.  (Its sample z-score is about 2.85, below the 3-sigma fence,
while it does exceed the IQR upper fence.) -/
theorem fixture_zscore_output_lacks_2500 :
    ¬ ∃ r ∈ (detect_outlier_transactions fixture).filter
        (fun r => r.otype = Category.ZScore_Outlier), r.tx.amount = 2500 := by decide

/-- C3 (corrected), amended: on the fixture the early-morning window
(hours 7–9) holds exactly 5 records; the small-transaction filter
(amount < 2.00) holds exactly 5 records, all on card 1234; and the
2500.00 record is the first (and only) row of the outlier detector's
output — it has the largest z-score of the snapshot — but it is
classified IQR_Outlier, not ZScore_Outlier. -/
theorem fixture_scenario :
    (get_top_100_early_morning_transactions fixture).length = 5 ∧
      (smallFilter 2 fixture).length = 5 ∧
      ((smallFilter 2 fixture).all fun t => t.card = 1234) = true ∧
      (detect_outlier_transactions fixture).map (fun r => (r.tx.amount, r.otype)) =
        [(2500, Category.IQR_Outlier)] ∧
      (fixture.all fun t =>
        (zSqOpt fixture t).getD 0 ≤ (zSqOpt fixture ⟨10, 81000, 2500, 3456, 4⟩).getD 0) =
        true := by decide

/-- C7 (confirmed): the min_transaction_count argument of
analyze_rapid_transactions is accepted but never interpolated into the
query, so the output is identical for any two values of it. -/
theorem min_transaction_count_inert (txs : List Tx) (w : ℚ) (m1 m2 : Nat) :
    analyze_rapid_transactions txs w m1 = analyze_rapid_transactions txs w m2 := rfl

/-- C8 (corrected), counterexample: two cards tie with one small
transaction each; the query orders only by count (no secondary key),
and the group of the larger card id 2 comes out before card id 1, so
the output is not tie-broken by ascending card id. -/
theorem small_groups_tie_not_by_card :
    ¬ (count_small_transactions_per_cardholder 2 twoCardsTied).Pairwise
        (fun a b => b.count ≤ a.count ∧ (a.count = b.count → a.card ≤ b.card)) := by
  intro h
  have h2 := h
  rw [show count_small_transactions_per_cardholder 2 twoCardsTied =
      [⟨2, 1, 1, 1, 1⟩, ⟨1, 1, 1, 1, 1⟩] from by decide] at h2
  exact absurd ((List.pairwise_cons.mp h2).1 ⟨1, 1, 1, 1, 1⟩ (by simp)) (by decide)

/-- C8 (corrected), amended: the per-card output is sorted by
descending small-transaction count; the query has no tie-break key, so
the order among cards with equal counts is unspecified (the embedding
realizes it as first-occurrence order). -/
theorem small_groups_sorted_desc (thr : ℚ) (txs : List Tx) :
    (count_small_transactions_per_cardholder thr txs).Sorted cardCountDesc :=
  List.sorted_insertionSort cardCountDesc _

/-- C9 (confirmed): for thresholds t1 ≤ t2, the number of small
transactions counted for any card under t1 is at most the number under
t2 — raising the threshold never decreases a per-card count. -/
theorem cardSmallCount_monotone (txs : List Tx) (c : Nat) (t1 t2 : ℚ) (h : t1 ≤ t2) :
    cardSmallCount t1 c txs ≤ cardSmallCount t2 c txs := by
  unfold cardSmallCount smallFilter
  rw [List.filter_filter, List.filter_filter]
  refine (List.monotone_filter_right txs ?_).length_le
  intro a ha
  simp only [Bool.and_eq_true, decide_eq_true_eq] at ha ⊢
  exact ⟨ha.1, lt_of_lt_of_le ha.2 h⟩

/-- Witness for C9 at a concrete snapshot and thresholds 1 ≤ 2. -/
theorem cardSmallCount_monotone_witness :
    (1 : ℚ) ≤ 2 ∧ cardSmallCount 1 1234 fixture ≤ cardSmallCount 2 1234 fixture :=
  ⟨by decide, cardSmallCount_monotone fixture 1234 1 2 (by decide)⟩

/-- When the summary builder succeeds, its indicator and risk fields
are exactly the expressions the dict literal assigns to them. -/
theorem report_fields (txs : List Tx) (r : Report)
    (h : generate_fraud_summary_report txs = some r) :
    r.fraud_indicators.cards_with_small_transactions =
        (count_small_transactions_per_cardholder 2 txs).length ∧
      r.fraud_indicators.outlier_transactions = (detect_outlier_transactions txs).length ∧
      r.fraud_indicators.suspicious_early_morning_transactions =
        (get_top_100_early_morning_transactions txs).length ∧
      r.risk_assessment.high_risk_cards =
        (if (count_small_transactions_per_cardholder 2 txs).isEmpty then 0
          else ((count_small_transactions_per_cardholder 2 txs).filter
            (fun g => decide (10 ≤ g.count))).length) ∧
      r.risk_assessment.extreme_outliers =
        (if (detect_outlier_transactions txs).isEmpty then 0
          else ((detect_outlier_transactions txs).filter zSqGt25).length) ∧
      r.risk_assessment.early_morning_high_value =
        (if (get_top_100_early_morning_transactions txs).isEmpty then 0
          else ((get_top_100_early_morning_transactions txs).filter
            (fun t => decide (100 < t.amount))).length) := by
  simp only [generate_fraud_summary_report, bind, Option.bind_eq_some,
    Option.some.injEq] at h
  obtain ⟨avg, h1, mn, h2, mx, h3, tv, h4, hr⟩ := h
  subst hr
  exact ⟨rfl, rfl, rfl, rfl, rfl, rfl⟩

/-- C10 (confirmed): whenever the summary builder succeeds, each
risk_assessment count is bounded by the matching fraud_indicators
count, since each is the length of a filter of the same detector
output. -/
theorem report_risk_bounded (txs : List Tx) (r : Report)
    (h : generate_fraud_summary_report txs = some r) :
    r.risk_assessment.high_risk_cards ≤
        r.fraud_indicators.cards_with_small_transactions ∧
      r.risk_assessment.extreme_outliers ≤ r.fraud_indicators.outlier_transactions ∧
      r.risk_assessment.early_morning_high_value ≤
        r.fraud_indicators.suspicious_early_morning_transactions := by
  obtain ⟨h1, h2, h3, h4, h5, h6⟩ := report_fields txs r h
  rw [h1, h2, h3, h4, h5, h6]
  refine ⟨?_, ?_, ?_⟩ <;> split <;> simp [List.length_filter_le]

/-- Witness for C10 at the one-transaction snapshot, on which the
builder succeeds. -/
theorem report_risk_bounded_witness :
    ((generate_fraud_summary_report oneTx).getD dummyReport).risk_assessment.high_risk_cards ≤
        ((generate_fraud_summary_report oneTx).getD
          dummyReport).fraud_indicators.cards_with_small_transactions ∧
      ((generate_fraud_summary_report oneTx).getD
          dummyReport).risk_assessment.extreme_outliers ≤
        ((generate_fraud_summary_report oneTx).getD
          dummyReport).fraud_indicators.outlier_transactions ∧
      ((generate_fraud_summary_report oneTx).getD
          dummyReport).risk_assessment.early_morning_high_value ≤
        ((generate_fraud_summary_report oneTx).getD
          dummyReport).fraud_indicators.suspicious_early_morning_transactions :=
  report_risk_bounded oneTx ((generate_fraud_summary_report oneTx).getD dummyReport)
    (by decide)

/-- A list of nonnegative rationals summing to zero is all zeros. -/
theorem all_zero_of_sum_zero {l : List ℚ} (h0 : ∀ x ∈ l, 0 ≤ x) (hs : l.sum = 0) :
    ∀ x ∈ l, x = 0 := by
  induction l with
  | nil => simp
  | cons a l ih =>
      have ha : 0 ≤ a := h0 a (List.mem_cons_self a l)
      have hl : 0 ≤ l.sum := List.sum_nonneg fun x hx => h0 x (List.mem_cons_of_mem a hx)
      rw [List.sum_cons] at hs
      have ha0 : a = 0 := le_antisymm (by linarith) ha
      have hs0 : l.sum = 0 := by linarith
      intro x hx
      rcases List.mem_cons.mp hx with rfl | hx
      · exact ha0
      · exact ih (fun y hy => h0 y (List.mem_cons_of_mem a hy)) hs0 x hx

/-- The amount column of a constant-amount snapshot is a replicate. -/
theorem amounts_const {txs : List Tx} {m : ℚ} (hall : ∀ t ∈ txs, t.amount = m) :
    amounts txs = List.replicate txs.length m := by
  unfold amounts
  rw [List.eq_replicate_iff]
  refine ⟨List.length_map _ _, fun b hb => ?_⟩
  obtain ⟨t, ht, rfl⟩ := List.mem_map.mp hb
  exact hall t ht

/-- AVG over a nonempty constant amount column is the constant. -/
theorem mean_const {txs : List Tx} {m : ℚ} (hne : txs ≠ [])
    (hall : ∀ t ∈ txs, t.amount = m) : meanOpt txs = some m := by
  have hlen0 : txs.length ≠ 0 := fun h => hne (List.length_eq_zero.mp h)
  have hcast : (txs.length : ℚ) ≠ 0 := Nat.cast_ne_zero.mpr hlen0
  simp only [meanOpt, amounts_const hall, List.length_replicate, List.sum_replicate,
    if_neg hlen0]
  congr 1
  rw [nsmul_eq_mul]
  exact mul_div_cancel_left₀ m hcast

/-- PERCENTILE_CONT of a nonempty constant column is the constant, for
any quantile between 0 and 1. -/
theorem percentileCont_const {l : List ℚ} {m : ℚ} (p : ℚ) (hne : l ≠ [])
    (hall : ∀ x ∈ l, x = m) (_hp0 : 0 ≤ p) (hp1 : p ≤ 1) :
    percentileCont p l = some m := by
  have hmem : ∀ x ∈ l.insertionSort (· ≤ ·), x = m := fun x hx =>
    hall x ((List.mem_insertionSort _).mp hx)
  have hlen : (l.insertionSort (· ≤ ·)).length = l.length :=
    (List.perm_insertionSort _ l).length_eq
  have hpos : 0 < (l.insertionSort (· ≤ ·)).length := by
    rw [hlen]; exact List.length_pos.mpr hne
  have h1q : (1 : ℚ) ≤ ((l.insertionSort (· ≤ ·)).length : ℚ) := by exact_mod_cast hpos
  have hle : p * (((l.insertionSort (· ≤ ·)).length : ℚ) - 1) ≤
      ((l.insertionSort (· ≤ ·)).length : ℚ) - 1 :=
    mul_le_of_le_one_left (by linarith) hp1
  have hfl : ⌊p * (((l.insertionSort (· ≤ ·)).length : ℚ) - 1)⌋ ≤
      ((l.insertionSort (· ≤ ·)).length : ℤ) - 1 := by
    calc ⌊p * (((l.insertionSort (· ≤ ·)).length : ℚ) - 1)⌋
        ≤ ⌊((l.insertionSort (· ≤ ·)).length : ℚ) - 1⌋ := Int.floor_mono hle
      _ = ((l.insertionSort (· ≤ ·)).length : ℤ) - 1 := by
          rw [show (((l.insertionSort (· ≤ ·)).length : ℚ) - 1) =
              ((((l.insertionSort (· ≤ ·)).length : ℤ) - 1 : ℤ) : ℚ) by push_cast; ring]
          exact Int.floor_intCast _
  have hilt : (⌊p * (((l.insertionSort (· ≤ ·)).length : ℚ) - 1)⌋).toNat <
      (l.insertionSort (· ≤ ·)).length := by omega
  have hlo : (l.insertionSort (· ≤ ·)).getD
      (⌊p * (((l.insertionSort (· ≤ ·)).length : ℚ) - 1)⌋).toNat 0 = m := by
    rw [List.getD_eq_getElem _ _ hilt]
    exact hmem _ (List.getElem_mem _)
  simp only [percentileCont, if_neg (Nat.pos_iff_ne_zero.mp hpos)]
  rw [hlo]
  by_cases hnext : (⌊p * (((l.insertionSort (· ≤ ·)).length : ℚ) - 1)⌋).toNat + 1 <
      (l.insertionSort (· ≤ ·)).length
  · rw [List.getD_eq_getElem _ _ hnext, hmem _ (List.getElem_mem _)]
    simp [mul_comm]
  · rw [List.getD_eq_default _ _ (not_lt.mp hnext)]
    simp [mul_comm]

/-- The amount column of a nonempty snapshot is nonempty. -/
theorem amounts_ne_nil {txs : List Tx} (hne : txs ≠ []) : amounts txs ≠ [] := by
  unfold amounts
  simpa using hne

/-- Every element of the amount column of a constant-amount snapshot is
the constant. -/
theorem amounts_all_const {txs : List Tx} {m : ℚ} (hall : ∀ t ∈ txs, t.amount = m) :
    ∀ x ∈ amounts txs, x = m := by
  intro x hx
  obtain ⟨t, ht, rfl⟩ := List.mem_map.mp hx
  exact hall t ht

/-- Both IQR fences of a nonempty constant-amount snapshot equal the
constant. -/
theorem iqr_bounds_const {txs : List Tx} {m : ℚ} (hne : txs ≠ [])
    (hall : ∀ t ∈ txs, t.amount = m) :
    iqrLowerOpt txs = some m ∧ iqrUpperOpt txs = some m := by
  have hq1 : q1Opt txs = some m :=
    percentileCont_const _ (amounts_ne_nil hne) (amounts_all_const hall)
      (by norm_num) (by norm_num)
  have hq3 : q3Opt txs = some m :=
    percentileCont_const _ (amounts_ne_nil hne) (amounts_all_const hall)
      (by norm_num) (by norm_num)
  constructor
  · simp [iqrLowerOpt, hq1, hq3]
  · simp [iqrUpperOpt, hq1, hq3]

/-- Sample variance, when defined, is nonnegative. -/
theorem varSampOpt_nonneg {txs : List Tx} {v : ℚ} (h : varSampOpt txs = some v) :
    0 ≤ v := by
  simp only [varSampOpt] at h
  split at h
  · exact absurd h (by simp)
  · rename_i hn
    obtain rfl := (Option.some.inj h).symm
    apply div_nonneg
    · refine List.sum_nonneg fun x hx => ?_
      obtain ⟨y, hy, rfl⟩ := List.mem_map.mp hx
      positivity
    · have h2 : 2 ≤ (amounts txs).length := by omega
      have : (2 : ℚ) ≤ ((amounts txs).length : ℚ) := by exact_mod_cast h2
      linarith

/-- On the IQR side, a constant-amount snapshot never flags. -/
theorem iqrOutside_false_of_const {txs : List Tx} {m : ℚ} (hne : txs ≠ [])
    (hall : ∀ t ∈ txs, t.amount = m) : ∀ t ∈ txs, iqrOutside txs t = false := by
  intro t ht
  unfold iqrOutside
  rw [(iqr_bounds_const hne hall).1, (iqr_bounds_const hne hall).2]
  simp [hall t ht]

/-- On the z-score side, a constant-amount snapshot never flags. -/
theorem zOutside_false_of_const {txs : List Tx} {m : ℚ} (hne : txs ≠ [])
    (hall : ∀ t ∈ txs, t.amount = m) : ∀ t ∈ txs, zOutside txs t = false := by
  intro t ht
  unfold zOutside
  rw [mean_const hne hall]
  rcases hv : varSampOpt txs with _ | v
  · rfl
  · have hv0 : 0 ≤ v := varSampOpt_nonneg hv
    have : ¬ ((t.amount - m) ^ 2 > 9 * v) := by
      rw [hall t ht]
      nlinarith
    simpa using this

/-- A constant-amount snapshot produces no outlier rows at all. -/
theorem wherePred_false_of_const {txs : List Tx} {m : ℚ} (hne : txs ≠ [])
    (hall : ∀ t ∈ txs, t.amount = m) : ∀ t ∈ txs, wherePred txs t = false := by
  intro t ht
  unfold wherePred
  rw [iqrOutside_false_of_const hne hall t ht, zOutside_false_of_const hne hall t ht]
  rfl

/-- Zero sample variance forces every amount to equal the mean. -/
theorem amount_eq_mean_of_var_zero {txs : List Tx} (h : varSampOpt txs = some 0) :
    ∀ t ∈ txs, t.amount = (amounts txs).sum / ((amounts txs).length : ℚ) := by
  simp only [varSampOpt] at h
  split at h
  · exact absurd h (by simp)
  · rename_i hn
    have hv := Option.some.inj h
    have hden : ((amounts txs).length : ℚ) - 1 ≠ 0 := by
      have h2 : 2 ≤ (amounts txs).length := by omega
      have : (2 : ℚ) ≤ ((amounts txs).length : ℚ) := by exact_mod_cast h2
      intro hz
      linarith
    have hsum : ((amounts txs).map
        (fun x => (x - (amounts txs).sum / ((amounts txs).length : ℚ)) ^ 2)).sum = 0 := by
      rcases div_eq_zero_iff.mp hv with h1 | h1
      · exact h1
      · exact absurd h1 hden
    intro t ht
    have hmem : (t.amount - (amounts txs).sum / ((amounts txs).length : ℚ)) ^ 2 ∈
        (amounts txs).map
          (fun x => (x - (amounts txs).sum / ((amounts txs).length : ℚ)) ^ 2) :=
      List.mem_map_of_mem _ (List.mem_map_of_mem _ ht)
    have hz := all_zero_of_sum_zero
      (fun x hx => by
        obtain ⟨y, hy, rfl⟩ := List.mem_map.mp hx
        positivity)
      hsum _ hmem
    have := sq_eq_zero_iff.mp hz
    linarith [this]

/-- A snapshot with zero sample variance is nonempty. -/
theorem ne_nil_of_var_some {txs : List Tx} {v : ℚ} (h : varSampOpt txs = some v) :
    txs ≠ [] := by
  rintro rfl
  simp [varSampOpt, amounts] at h

/-- Zero sample variance produces no outlier rows. -/
theorem wherePred_false_of_var_zero {txs : List Tx} (h : varSampOpt txs = some 0) :
    ∀ t ∈ txs, wherePred txs t = false :=
  wherePred_false_of_const (ne_nil_of_var_some h) (amount_eq_mean_of_var_zero h)

/-- Zero sample variance makes the z-score column NULL everywhere
(`NULLIF(stddev, 0)` turns the divisor into NULL). -/
theorem zSqOpt_none_of_var_zero {txs : List Tx} (h : varSampOpt txs = some 0) :
    ∀ t : Tx, zSqOpt txs t = none := by
  intro t
  unfold zSqOpt
  rw [h]
  cases meanOpt txs <;> simp

/-- Zero sample variance rules out the ZScore_Outlier category. -/
theorem classify_ne_zscore_of_var_zero {txs : List Tx} (h : varSampOpt txs = some 0) :
    ∀ t ∈ txs, classify txs t ≠ Category.ZScore_Outlier := by
  intro t ht
  have hz : zOutside txs t = false :=
    zOutside_false_of_const (ne_nil_of_var_some h) (amount_eq_mean_of_var_zero h) t ht
  unfold classify
  cases hiq : iqrOutside txs t <;> simp [hiq, hz]

/-- Zero sample variance empties the outlier output. -/
theorem detect_empty_of_var_zero {txs : List Tx} (h : varSampOpt txs = some 0) :
    detect_outlier_transactions txs = [] := by
  unfold detect_outlier_transactions
  rw [List.filter_eq_nil_iff.mpr
    (fun t ht => by simp [wherePred_false_of_var_zero h t ht])]
  rfl

/-- C6 (confirmed): on a snapshot whose amount standard deviation is
zero, the z-score of every transaction is NULL, no transaction is
classified ZScore_Outlier, and any successful summary report counts
zero extreme outliers. -/
theorem var_zero_guards (txs : List Tx) (h : varSampOpt txs = some 0) :
    (∀ t : Tx, zSqOpt txs t = none) ∧
      (∀ t ∈ txs, classify txs t ≠ Category.ZScore_Outlier) ∧
      ∀ r : Report, generate_fraud_summary_report txs = some r →
        r.risk_assessment.extreme_outliers = 0 := by
  refine ⟨zSqOpt_none_of_var_zero h, classify_ne_zscore_of_var_zero h, ?_⟩
  intro r hr
  have h5 := (report_fields txs r hr).2.2.2.2.1
  rw [h5, detect_empty_of_var_zero h]
  rfl

/-- Witness for C6 at the two-equal-amount one-card snapshot, whose
sample variance is zero and whose report succeeds. -/
theorem var_zero_guards_witness :
    varSampOpt twoSameCard = some 0 ∧
      zSqOpt twoSameCard ⟨1, 0, 5, 1, 1⟩ = none ∧
      classify twoSameCard ⟨1, 0, 5, 1, 1⟩ ≠ Category.ZScore_Outlier ∧
      ((generate_fraud_summary_report twoSameCard).getD
        dummyReport).risk_assessment.extreme_outliers = 0 :=
  ⟨by decide,
    (var_zero_guards twoSameCard (by decide)).1 _,
    (var_zero_guards twoSameCard (by decide)).2.1 _ (by decide),
    (var_zero_guards twoSameCard (by decide)).2.2 _ (by decide)⟩

/-- The WHERE clause of the outlier query accepts exactly the rows the
CASE classifies as non-Normal. -/
theorem wherePred_eq_classify_ne (txs : List Tx) (t : Tx) :
    wherePred txs t = decide (classify txs t ≠ Category.Normal) := by
  unfold wherePred classify
  cases hi : iqrOutside txs t <;> cases hz : zOutside txs t <;> simp

/-- Any row accepted by the WHERE clause has a defined (non-NULL)
z-score: such a row needs at least two rows in the snapshot and a
nonzero spread of amounts. -/
theorem zSq_defined_of_wherePred {txs : List Tx} {t : Tx} (ht : t ∈ txs)
    (hw : wherePred txs t = true) : (zSqOpt txs t).isSome = true := by
  rcases hv : varSampOpt txs with _ | v
  · exfalso
    simp only [varSampOpt] at hv
    split at hv
    · rename_i hn
      have hlen : txs.length ≤ 1 := by
        simpa [amounts] using hn
      match txs, ht with
      | [a], ht =>
          have hta : t = a := by simpa using ht
          subst hta
          have := @wherePred_false_of_const [t] t.amount
            (by simp) (by simp) t (by simp)
          rw [this] at hw
          cases hw
    · exact absurd hv (by simp)
  · by_cases hv0 : v = 0
    · subst hv0
      rw [wherePred_false_of_var_zero hv t ht] at hw
      cases hw
    · have hm : meanOpt txs = some ((amounts txs).sum / ((amounts txs).length : ℚ)) := by
        have hne : txs ≠ [] := ne_nil_of_var_some hv
        have : (amounts txs).length ≠ 0 := by
          simpa [amounts] using fun h => hne (List.length_eq_zero.mp h)
        simp [meanOpt, this]
      unfold zSqOpt
      rw [hm, hv]
      simp [hv0]

/-- C5 (corrected), counterexample: on the three-equal-amount snapshot
every transaction is classified Normal and the output of
detect_outlier_transactions is empty, so the output is not the full
classified set (0 rows versus 3 transactions). -/
theorem outlier_output_not_full :
    ¬ (detect_outlier_transactions threeEqual).length = threeEqual.length := by decide

/-- C5 (corrected), amended: the output of detect_outlier_transactions
is exactly the non-Normal (outlier-classified) subset of the snapshot,
ordered by descending z-score, and every output row has a defined
(non-NULL) z-score; the Normal rows are excluded by the WHERE clause,
and the query guarantees no particular order among equal z-scores. -/
theorem outlier_output_shape (txs : List Tx) :
    detect_outlier_transactions txs =
        ((txs.filter fun t => classify txs t ≠ Category.Normal).map
          (fun t => OutRow.mk t (classify txs t) (zSqOpt txs t))).insertionSort zDesc ∧
      (detect_outlier_transactions txs).Sorted zDesc ∧
      ((detect_outlier_transactions txs).all fun r => r.zsq.isSome) = true := by
  refine ⟨?_, List.sorted_insertionSort _ _, ?_⟩
  · unfold detect_outlier_transactions
    rw [List.filter_congr (fun t _ => wherePred_eq_classify_ne txs t)]
  · rw [List.all_eq_true]
    intro r hr
    unfold detect_outlier_transactions at hr
    rw [List.mem_insertionSort] at hr
    obtain ⟨t, ht, rfl⟩ := List.mem_map.mp hr
    obtain ⟨ht1, ht2⟩ := List.mem_filter.mp ht
    exact zSq_defined_of_wherePred ht1 ht2

/-- In a date-sorted partition, a row strictly earlier than another
member carries a LEAD gap (minutes_to_next) bounded by their mutual
gap: the successor is no later than that other member. -/
theorem lagLead_mem_next (l : List Tx) :
    l.Pairwise dateAsc → ∀ A B : Tx, A ∈ l → B ∈ l → A.date < B.date →
      ∀ p : Option Tx,
        ∃ pr g, VelRow.mk A pr (some g) ∈ lagLead p l ∧ g ≤ gapMin A B := by
  induction l with
  | nil => intro _ A B hA; cases hA
  | cons t rest ih =>
      intro hs A B hA hB hAB p
      obtain ⟨hts, hrest⟩ := List.pairwise_cons.mp hs
      rcases List.mem_cons.mp hA with rfl | hA2
      · have hBr : B ∈ rest := by
          rcases List.mem_cons.mp hB with rfl | hB2
          · exact absurd hAB (lt_irrefl _)
          · exact hB2
        cases rest with
        | nil => cases hBr
        | cons h0 rest2 =>
            refine ⟨p.map (fun u => gapMin u A), gapMin A h0,
              List.mem_cons_self _ _, ?_⟩
            have hh0B : h0.date ≤ B.date := by
              rcases List.mem_cons.mp hBr with rfl | hB3
              · exact le_refl _
              · exact (List.pairwise_cons.mp hrest).1 B hB3
            have hc : (h0.date : ℚ) ≤ (B.date : ℚ) := by exact_mod_cast hh0B
            unfold gapMin
            linarith
      · have hBr : B ∈ rest := by
          rcases List.mem_cons.mp hB with rfl | hB2
          · exact absurd hAB (not_lt.mpr (hts A hA2))
          · exact hB2
        obtain ⟨pr, g, hmem, hg⟩ := ih hrest A B hA2 hBr hAB (some t)
        exact ⟨pr, g, List.mem_cons_of_mem _ hmem, hg⟩

/-- In a date-sorted partition every member below which the accumulator
sits carries a LAG gap (minutes_since_prev) bounded by its gap to the
accumulator. -/
theorem lagLead_mem_prev_aux (l : List Tx) :
    l.Pairwise dateAsc → ∀ u B : Tx, (∀ x ∈ l, u.date ≤ x.date) → B ∈ l →
      ∃ g nx, VelRow.mk B (some g) nx ∈ lagLead (some u) l ∧ g ≤ gapMin u B := by
  induction l with
  | nil => intro _ u B _ hB; cases hB
  | cons t rest ih =>
      intro hs u B hu hB
      obtain ⟨hts, hrest⟩ := List.pairwise_cons.mp hs
      rcases List.mem_cons.mp hB with rfl | hB2
      · exact ⟨gapMin u B, _, List.mem_cons_self _ _, le_refl _⟩
      · obtain ⟨g, nx, hmem, hg⟩ := ih hrest t B (fun x hx => hts x hx) hB2
        refine ⟨g, nx, List.mem_cons_of_mem _ hmem, le_trans hg ?_⟩
        have hut : u.date ≤ t.date := hu t (List.mem_cons_self _ _)
        have hc : (u.date : ℚ) ≤ (t.date : ℚ) := by exact_mod_cast hut
        unfold gapMin
        linarith

/-- In a date-sorted partition, a row strictly later than another
member carries a LAG gap (minutes_since_prev) bounded by their mutual
gap: the predecessor is no earlier than that other member. -/
theorem lagLead_mem_prev (l : List Tx) :
    l.Pairwise dateAsc → ∀ A B : Tx, A ∈ l → B ∈ l → A.date < B.date →
      ∀ p : Option Tx,
        ∃ g nx, VelRow.mk B (some g) nx ∈ lagLead p l ∧ g ≤ gapMin A B := by
  induction l with
  | nil => intro _ A B hA; cases hA
  | cons t rest ih =>
      intro hs A B hA hB hAB p
      obtain ⟨hts, hrest⟩ := List.pairwise_cons.mp hs
      have hBr : B ∈ rest := by
        rcases List.mem_cons.mp hB with rfl | hB2
        · rcases List.mem_cons.mp hA with rfl | hA2
          · exact absurd hAB (lt_irrefl _)
          · exact absurd hAB (not_lt.mpr (hts A hA2))
        · exact hB2
      rcases List.mem_cons.mp hA with rfl | hA2
      · obtain ⟨g, nx, hmem, hg⟩ :=
          lagLead_mem_prev_aux rest hrest A B (fun x hx => hts x hx) hBr
        exact ⟨g, nx, List.mem_cons_of_mem _ hmem, hg⟩
      · obtain ⟨g, nx, hmem, hg⟩ := ih hrest A B hA2 hBr hAB (some t)
        exact ⟨g, nx, List.mem_cons_of_mem _ hmem, hg⟩

/-- When two rows stand adjacent in a partition, the LAG/LEAD scan
gives the earlier one a minutes_to_next and the later one a
minutes_since_prev that are literally the same value: their mutual
gap. -/
theorem lagLead_adjacent (l₁ : List Tx) (A B : Tx) (l₂ : List Tx) (p : Option Tx) :
    ∃ pr, VelRow.mk A pr (some (gapMin A B)) ∈ lagLead p (l₁ ++ A :: B :: l₂) ∧
      VelRow.mk B (some (gapMin A B)) (l₂.head?.map fun u => gapMin B u) ∈
        lagLead p (l₁ ++ A :: B :: l₂) := by
  induction l₁ generalizing p with
  | nil =>
      exact ⟨p.map (fun u => gapMin u A), List.mem_cons_self _ _,
        List.mem_cons_of_mem _ (List.mem_cons_self _ _)⟩
  | cons t rest ih =>
      obtain ⟨pr, h1, h2⟩ := ih (some t)
      exact ⟨pr, List.mem_cons_of_mem _ h1, List.mem_cons_of_mem _ h2⟩

/-- C4 (confirmed): for any two same-card transactions A (strictly
earlier) and B (strictly later) whose gap in minutes is at most the
window, the velocity detector's output flags A through a
minutes_to_next of at most the window and flags B through a
minutes_since_prev of at most the window; and whenever A immediately
precedes B in the date-sorted partition, both rows appear in the
output flagged for the same gap value gapMin A B — carried by A as
its minutes_to_next and by B as its minutes_since_prev. -/
theorem rapid_symmetry (txs : List Tx) (w : ℚ) (m : Nat) (A B : Tx)
    (hA : A ∈ txs) (hB : B ∈ txs) (hcard : A.card = B.card)
    (hdate : A.date < B.date) (hgap : gapMin A B ≤ w) :
    ((∃ pr g, VelRow.mk A pr (some g) ∈ analyze_rapid_transactions txs w m ∧ g ≤ w) ∧
      ∃ g nx, VelRow.mk B (some g) nx ∈ analyze_rapid_transactions txs w m ∧ g ≤ w) ∧
      ∀ l₁ l₂ : List Tx, sortedPartition txs A.card = l₁ ++ A :: B :: l₂ →
        (∃ pr, VelRow.mk A pr (some (gapMin A B)) ∈
            analyze_rapid_transactions txs w m) ∧
          VelRow.mk B (some (gapMin A B)) (l₂.head?.map fun u => gapMin B u) ∈
            analyze_rapid_transactions txs w m := by
  have hsorted : (sortedPartition txs A.card).Pairwise dateAsc :=
    List.sorted_insertionSort _ _
  have hA2 : A ∈ sortedPartition txs A.card := by
    unfold sortedPartition partitionOf
    rw [List.mem_insertionSort]
    exact List.mem_filter.mpr ⟨hA, by simp⟩
  have hB2 : B ∈ sortedPartition txs A.card := by
    unfold sortedPartition partitionOf
    rw [List.mem_insertionSort]
    exact List.mem_filter.mpr ⟨hB, by simp [hcard]⟩
  have hcmem : A.card ∈ ((txs.map (fun t => t.card)).dedup).insertionSort (· ≤ ·) := by
    rw [List.mem_insertionSort, List.mem_dedup]
    exact List.mem_map_of_mem _ hA
  refine ⟨⟨?_, ?_⟩, ?_⟩
  · obtain ⟨pr, g, hmem, hg⟩ :=
      lagLead_mem_next (sortedPartition txs A.card) hsorted A B hA2 hB2 hdate none
    have hgw : g ≤ w := le_trans hg hgap
    refine ⟨pr, g, ?_, hgw⟩
    unfold analyze_rapid_transactions
    rw [List.mem_flatMap]
    refine ⟨A.card, hcmem, List.mem_filter.mpr ⟨hmem, ?_⟩⟩
    simp [rapidWhere, hgw]
  · obtain ⟨g, nx, hmem, hg⟩ :=
      lagLead_mem_prev (sortedPartition txs A.card) hsorted A B hA2 hB2 hdate none
    have hgw : g ≤ w := le_trans hg hgap
    refine ⟨g, nx, ?_, hgw⟩
    unfold analyze_rapid_transactions
    rw [List.mem_flatMap]
    refine ⟨A.card, hcmem, List.mem_filter.mpr ⟨hmem, ?_⟩⟩
    simp [rapidWhere, hgw]
  · intro l₁ l₂ hdec
    obtain ⟨pr, hAmem, hBmem⟩ := lagLead_adjacent l₁ A B l₂ none
    rw [← hdec] at hAmem hBmem
    constructor
    · refine ⟨pr, ?_⟩
      unfold analyze_rapid_transactions
      rw [List.mem_flatMap]
      refine ⟨A.card, hcmem, List.mem_filter.mpr ⟨hAmem, ?_⟩⟩
      simp [rapidWhere, hgap]
    · unfold analyze_rapid_transactions
      rw [List.mem_flatMap]
      refine ⟨A.card, hcmem, List.mem_filter.mpr ⟨hBmem, ?_⟩⟩
      simp [rapidWhere, hgap]

/-- Witness for C4: two transactions on card 5, two minutes apart,
window 5 minutes; they are adjacent in their partition, and both output
rows carry the same gap value of 2 minutes. -/
theorem rapid_symmetry_witness :
    ((∃ pr g, VelRow.mk ⟨1, 0, 10, 5, 1⟩ pr (some g) ∈
        analyze_rapid_transactions twoQuick 5 3 ∧ g ≤ 5) ∧
      ∃ g nx, VelRow.mk ⟨2, 120, 20, 5, 1⟩ (some g) nx ∈
        analyze_rapid_transactions twoQuick 5 3 ∧ g ≤ 5) ∧
      (∃ pr, VelRow.mk ⟨1, 0, 10, 5, 1⟩ pr
          (some (gapMin ⟨1, 0, 10, 5, 1⟩ ⟨2, 120, 20, 5, 1⟩)) ∈
          analyze_rapid_transactions twoQuick 5 3) ∧
        VelRow.mk ⟨2, 120, 20, 5, 1⟩
            (some (gapMin ⟨1, 0, 10, 5, 1⟩ ⟨2, 120, 20, 5, 1⟩))
            (([] : List Tx).head?.map fun u => gapMin ⟨2, 120, 20, 5, 1⟩ u) ∈
          analyze_rapid_transactions twoQuick 5 3 :=
  ⟨(rapid_symmetry twoQuick 5 3 ⟨1, 0, 10, 5, 1⟩ ⟨2, 120, 20, 5, 1⟩
      (by decide) (by decide) rfl (by decide) (by decide)).1,
    (rapid_symmetry twoQuick 5 3 ⟨1, 0, 10, 5, 1⟩ ⟨2, 120, 20, 5, 1⟩
      (by decide) (by decide) rfl (by decide) (by decide)).2 [] [] (by decide)⟩

end FraudDetection
